import Mathlib

/-!
Verification of the proof core of the verifiable-SQL engine: the sum-check
based query-proof lifecycle (`QueryProof::new` / `QueryProof::verify`), the
three builder passes, the compact provable result, and the concrete test
execution plans from `sql/proof/query_proof_test.rs`.

The proof-core implementation itself (builders, `QueryProof`, the provable
result container) is not part of the sources at hand — only its tests and the
module declarations are — so those components are modelled from the
specification (sections 4.2—4.9) and marked `Modelled from the spec:` in
their doc comments.  The out-of-scope collaborators (the sum-check engine and
the commitment-scheme evaluation proof) are modelled as ideal functionalities,
exactly as the specification treats them (consumed as a library, with the
core depending only on a homomorphic commitment abstraction).  The test
execution plans and the scenarios are translated from
`src/crates/proof-of-sql/src/sql/proof/query_proof_test.rs`.
-/

namespace SxtProof

set_option maxRecDepth 1000000

/-- The scalar prime field.  The production code uses the Curve25519 scalar
field; the model uses the prime 1000003, which keeps every claim kernel
computable while preserving the algebra (`Scalar` in the spec is any prime
field). -/
abbrev F : Type := ZMod 1000003

/-- Cast an `i64` column entry into the scalar field. -/
def toF (x : Int) : F := (x : F)

/-! ### Pointwise vector algebra on `List F`

Columns, multilinear-extension tables and commitments are all finite scalar
vectors; operations are pointwise with implicit zero padding. -/

/-- Pointwise sum of two scalar vectors; the shorter one is zero padded. -/
def vadd : List F → List F → List F
  | [], b => b
  | a, [] => a
  | x :: xs, y :: ys => (x + y) :: vadd xs ys

/-- Scale a scalar vector. -/
def vsmul (c : F) (a : List F) : List F := a.map (fun x => c * x)

/-- Pad a vector with zeros up to length `m`. -/
def pad (a : List F) (m : Nat) : List F := a ++ List.replicate (m - a.length) 0

/-- Inner product of two scalar vectors (zip-truncating). -/
def dot (a b : List F) : F := (List.zipWith (· * ·) a b).sum

/-! ### Multilinear extensions

`mle c r` evaluates, at the point `r ∈ F^ν`, the multilinear extension of the
table `c` (indexed by the boolean hypercube, low bit first; entries beyond
`c.length` are zero). -/

/-- One variable-elimination round: combine adjacent table entries with the
challenge `t` (the standard `(1-t)·even + t·odd` fold; a missing odd partner
counts as zero). -/
def combine : List F → F → List F
  | [], _ => []
  | [a], t => [(1 - t) * a]
  | a :: b :: rest, t => ((1 - t) * a + t * b) :: combine rest t

/-- Multilinear-extension evaluation of the table `c` at the point `r`. -/
def mle : List F → List F → F
  | c, [] => c.headD 0
  | c, t :: ts => mle (combine c t) ts

/-- Lagrange weight of hypercube index `i` at the point `r` (low bit first):
the product over the variables of `tⱼ` or `1 - tⱼ` according to bit `j` of
`i`. -/
def weight : List F → Nat → F
  | [], _ => 1
  | t :: ts, i => (if i % 2 = 1 then t else 1 - t) * weight ts (i / 2)

/-- Evaluation of the EQ (identity-indicator) polynomial at the pair of
points `a`, `b` of equal dimension. -/
def eqEval (a b : List F) : F :=
  ((List.zip a b).map (fun p => (1 - p.1) * (1 - p.2) + p.1 * p.2)).prod

/-- The boolean-hypercube point with index `i` in dimension `ν` (low bit
first), as a scalar vector. -/
def bitsOf (ν i : Nat) : List F :=
  (List.range ν).map (fun j => if Nat.testBit i j then (1 : F) else 0)

/-! ### Commitments -/

/-- Modelled from the spec: `Commitment` — "a group element homomorphic over
Scalar"; the concrete scheme is out of scope, so the model uses the perfectly
binding formal commitment that carries the committed column at its generator
offset, with the pointwise group structure (`vadd`/`vsmul`) and equality as
group elements (`ceq`). -/
abbrev Commitment : Type := List F

/-- Modelled from the spec: committing the column `c` with generator offset
`off` — the column placed after `off` zero generator slots, so that
`commit k (a) + commit k (b) = commit k (a + b)` and commitments at different
offsets of nonzero columns differ. -/
def commit (off : Nat) (c : List F) : Commitment := List.replicate off 0 ++ c

/-- Equality of commitments (and of scalar vectors) as group elements:
pointwise with zero padding. -/
def ceq (a b : List F) : Bool :=
  pad a (max a.length b.length) == pad b (max a.length b.length)

/-- Fold a family of vectors with coefficients: `Σⱼ cⱼ·vⱼ` pointwise. -/
def foldVecs (cs : List F) (cols : List (List F)) : List F :=
  (List.zipWith vsmul cs cols).foldr vadd []

/-! ### Data model (spec §3) -/

/-- Column reference: the tests use `(table, column)` pairs such as
`sxt.test.x`; all referenced columns are `BigInt`, so the type tag is
omitted. -/
structure ColumnRef where
  table : String
  column : String
deriving DecidableEq

/-- Modelled from the spec: `Indexes` — which row indices of the evaluated
plan length are present in the result (`Dense` contiguous range or `Sparse`
ascending list). -/
inductive Indexes where
  | Dense (start stop : Nat)
  | Sparse (ixs : List Nat)
deriving DecidableEq

/-- The row indices an `Indexes` value selects, in order. -/
def Indexes.toList : Indexes → List Nat
  | .Dense s e => List.range' s (e - s)
  | .Sparse l => l

/-- Strictly ascending list of row indices. -/
def ascending : List Nat → Bool
  | [] => true
  | [_] => true
  | a :: b :: rest => decide (a < b) && ascending (b :: rest)

/-- Modelled from the spec: index validity — `Sparse` lists are strictly
ascending with every entry below the plan length; `Dense` ranges lie inside
`[0, n)`. -/
def Indexes.valid : Indexes → Nat → Bool
  | .Dense s e, n => decide (s ≤ e) && decide (e ≤ n)
  | .Sparse l, n => ascending l && l.all (fun i => decide (i < n))

/-- Modelled from the spec: `ProvableQueryResult` — the compact,
verifier-reconstructible result: the selected indexes and, per result column,
the selected entries in index order (the byte encoding is replaced by the
decoded values; it is deterministic and round-trip stable, so the model works
with the decoded form). -/
structure ProvableQueryResult where
  indexes : Indexes
  columns : List (List Int)
deriving DecidableEq

/-- Modelled from the spec: `ProofCounts` — the integers agreed by the count
pass (§4.2): degree bound, result-column count, subpolynomial count,
anchored-MLE count, intermediate-MLE count, post-result-challenge count. -/
structure ProofCounts where
  degree : Nat
  resultColumns : Nat
  subpolynomials : Nat
  anchoredMles : Nat
  intermediateMles : Nat
  postResultChallenges : Nat
deriving DecidableEq

/-- Modelled from the spec: the accessor family collapsed into one test
accessor — `MetadataAccessor` supplies the generator offset, `DataAccessor`
the column data, and `CommitmentAccessor` the commitment
`C = commit_k(column)` (§6), which the model computes from the data, so every
accessor is valid by construction. -/
structure TestAccessor where
  offset : Nat
  data : List (ColumnRef × List Int)

/-- `DataAccessor::get_column`. -/
def TestAccessor.getColumn (A : TestAccessor) (ref : ColumnRef) : List Int :=
  (A.data.lookup ref).getD []

/-- `MetadataAccessor::get_offset`. -/
def TestAccessor.getOffset (A : TestAccessor) : Nat := A.offset

/-- `CommitmentAccessor::get_commitment`, satisfying the §6 contract
`C = commit_k(column)` by construction. -/
def TestAccessor.getCommitment (A : TestAccessor) (ref : ColumnRef) : Commitment :=
  commit A.offset ((A.getColumn ref).map toF)

/-- `UnimplementedTestAccessor::new_empty()`. -/
def emptyAccessor : TestAccessor := { offset := 0, data := [] }

/-- The sumcheck-subpolynomial kind: `Identity` must vanish at every boolean
hypercube point, `ZeroSum` must sum to zero over the hypercube. -/
inductive SumcheckSubpolynomialType where
  | Identity
  | ZeroSum
deriving DecidableEq

/-- One term of a subpolynomial: a scalar coefficient and an ordered list of
MLE factor columns. -/
abbrev SumcheckSubpolynomialTerm : Type := F × List (List F)

/-- Modelled from the spec: `SumcheckSubpolynomial` — `(kind, terms)`. -/
abbrev SumcheckSubpolynomial : Type :=
  SumcheckSubpolynomialType × List SumcheckSubpolynomialTerm

/-- Modelled from the spec: error taxonomy (§7); kinds, not type names. -/
inductive ProofError where
  | StructuralMismatch
  | CommitmentMismatch
  | SumcheckFailure
  | EvaluationMismatch
  | InnerProductFailure
  | DecodeError
  | AccessorError
deriving DecidableEq

/-- Verification outcome: the transcript digest and the decoded result
table. -/
structure QueryData where
  verificationHash : F
  table : List (String × List Int)
deriving DecidableEq

/-! ### Builders (spec §4.3—§4.5) -/

/-- Modelled from the spec: the finalized `ResultBuilder` state after
`result_evaluate` — result indexes, the produced full-length result columns
(serialization later picks the selected entries), and the number of requested
post-result challenges. -/
structure ResultState where
  indexes : Indexes
  fullColumns : List (List Int)
  requestedChallenges : Nat

/-- Modelled from the spec: `ProofBuilder` (§4.4) — collects anchored MLEs,
intermediate MLEs and sumcheck subpolynomials in emission order, and hands
out post-result challenges in request order. -/
structure ProofBuilder where
  tableLength : Nat
  anchored : List (List F)
  intermediate : List (List F)
  subpolys : List SumcheckSubpolynomial
  challenges : List F

def ProofBuilder.init (n : Nat) (chals : List F) : ProofBuilder :=
  { tableLength := n, anchored := [], intermediate := [], subpolys := [],
    challenges := chals }

def ProofBuilder.produceAnchoredMle (pb : ProofBuilder) (col : List F) :
    ProofBuilder :=
  { pb with anchored := pb.anchored ++ [col] }

def ProofBuilder.produceIntermediateMle (pb : ProofBuilder) (col : List F) :
    ProofBuilder :=
  { pb with intermediate := pb.intermediate ++ [col] }

def ProofBuilder.produceSumcheckSubpolynomial (pb : ProofBuilder)
    (sp : SumcheckSubpolynomial) : ProofBuilder :=
  { pb with subpolys := pb.subpolys ++ [sp] }

def ProofBuilder.consumePostResultChallenge (pb : ProofBuilder) :
    F × ProofBuilder :=
  (pb.challenges.headD 0, { pb with challenges := pb.challenges.tail })

/-- Modelled from the spec: `SumcheckMleEvaluations` (§4.7), reduced to the
part the verifier-side plans consult — the `random_evaluation` multiplier
`EQ(ρ, r)` that scales Identity-kind constraints. -/
structure SumcheckMleEvaluations where
  randomEvaluation : F
deriving DecidableEq

/-- Modelled from the spec: `VerificationBuilder` (§4.5) — twin FIFO queues
of the prover's emissions: result/anchored/intermediate MLE evaluations,
post-result challenges, plus the accumulated subpolynomial evaluations and
the stash of expected anchored commitments (in consumption order). -/
structure VerificationBuilder where
  mleEvaluations : SumcheckMleEvaluations
  resultEvals : List F
  anchoredEvals : List F
  intermediateEvals : List F
  challenges : List F
  produced : List F
  anchoredCommitments : List Commitment
deriving DecidableEq

def VerificationBuilder.consumeResultMle (vb : VerificationBuilder) :
    F × VerificationBuilder :=
  (vb.resultEvals.headD 0, { vb with resultEvals := vb.resultEvals.tail })

def VerificationBuilder.consumeAnchoredMle (vb : VerificationBuilder)
    (expected : Commitment) : F × VerificationBuilder :=
  (vb.anchoredEvals.headD 0,
    { vb with anchoredEvals := vb.anchoredEvals.tail,
              anchoredCommitments := vb.anchoredCommitments ++ [expected] })

def VerificationBuilder.consumeIntermediateMle (vb : VerificationBuilder) :
    F × VerificationBuilder :=
  (vb.intermediateEvals.headD 0,
    { vb with intermediateEvals := vb.intermediateEvals.tail })

def VerificationBuilder.consumePostResultChallenge (vb : VerificationBuilder) :
    F × VerificationBuilder :=
  (vb.challenges.headD 0, { vb with challenges := vb.challenges.tail })

def VerificationBuilder.produceSumcheckSubpolynomialEvaluation
    (vb : VerificationBuilder) (e : F) : VerificationBuilder :=
  { vb with produced := vb.produced ++ [e] }

/-- Modelled from the spec: the plan trait surface (§4.1,
`ProofExecutionPlan` + `ProverEvaluate`).  The count pass is represented by
its finalized `ProofCounts`; `result_evaluate` receives the table length,
`prover_evaluate` a `ProofBuilder`, and `verifier_evaluate` a
`VerificationBuilder` (failing assertions surface as errors). -/
structure ProofExecutionPlan where
  counts : ProofCounts
  getLength : TestAccessor → Nat
  getOffset : TestAccessor → Nat
  resultEvaluate : Nat → TestAccessor → ResultState
  proverEvaluate : ProofBuilder → TestAccessor → ProofBuilder
  verifierEvaluate : VerificationBuilder → TestAccessor →
    Except ProofError VerificationBuilder
  resultFields : List String

/-! ### Composite polynomial (spec §4.6) -/

/-- Pointwise evaluation of one subpolynomial term at hypercube index `i`:
coefficient times the product of the factor entries. -/
def termEvalAt (i : Nat) (t : SumcheckSubpolynomialTerm) : F :=
  t.1 * (t.2.map (fun f => f.getD i 0)).prod

/-- Pointwise evaluation of a subpolynomial at hypercube index `i`. -/
def subpolyEvalAt (i : Nat) (sp : SumcheckSubpolynomial) : F :=
  (sp.2.map (termEvalAt i)).sum

/-- Modelled from the spec: the hypercube sum contributed by one
subpolynomial inside the composite — Identity-kind subpolynomials are
multiplied pointwise by the EQ MLE against the random point `ρ`, ZeroSum ones
are added directly. -/
def subpolySum (ν : Nat) (ρ : List F) (sp : SumcheckSubpolynomial) : F :=
  ((List.range (2 ^ ν)).map (fun i =>
    (if sp.1 = SumcheckSubpolynomialType.Identity then eqEval ρ (bitsOf ν i) else 1)
      * subpolyEvalAt i sp)).sum

/-- Modelled from the spec: the composite polynomial's sum over the boolean
hypercube, with one Fiat–Shamir multiplier from `γ` per subpolynomial. -/
def compositeSum (ν : Nat) (ρ γ : List F) (sps : List SumcheckSubpolynomial) : F :=
  dot γ (sps.map (subpolySum ν ρ))

/-- MLE evaluation of one term at the sumcheck point `r` (factors padded to
the hypercube size `m`). -/
def termMleEval (m : Nat) (r : List F) (t : SumcheckSubpolynomialTerm) : F :=
  t.1 * (t.2.map (fun f => mle (pad f m) r)).prod

/-- MLE evaluation of one subpolynomial at `r`, with the EQ factor for
Identity-kind subpolynomials. -/
def subpolyMleEval (m : Nat) (ρ r : List F) (sp : SumcheckSubpolynomial) : F :=
  (if sp.1 = SumcheckSubpolynomialType.Identity then eqEval ρ r else 1)
    * (sp.2.map (termMleEval m r)).sum

/-- Modelled from the spec: the composite polynomial's evaluation at the
sumcheck challenge point `r`. -/
def compositeEval (m : Nat) (ρ γ r : List F) (sps : List SumcheckSubpolynomial) : F :=
  dot γ (sps.map (subpolyMleEval m ρ r))

/-- Degree of a subpolynomial: max term factor count, plus one for
Identity-kind (the EQ factor). -/
def subpolyDegree (sp : SumcheckSubpolynomial) : Nat :=
  (sp.2.map (fun t => t.2.length)).foldr max 0
    + (if sp.1 = SumcheckSubpolynomialType.Identity then 1 else 0)

/-- The degree the proof's subpolynomial data exhibits. -/
def maxSubpolyDegree (sps : List SumcheckSubpolynomial) : Nat :=
  (sps.map subpolyDegree).foldr max 0

/-! ### Fiat–Shamir transcript

Modelled from the spec: the transcript is the growing list of absorbed field
elements; challenges are squeezed through a hash function `H` supplied as a
parameter (both sides must absorb identical values in identical order, and
squeezing extends the sponge state). -/

/-- Squeeze `j` challenges out of the transcript state `t`. -/
def squeeze (H : List F → F) (t : List F) (j : Nat) : List F :=
  (List.range j).map (fun i => H (t ++ [(i : F) + 1]))

/-- The concrete transcript hash used for the end-to-end scenarios: a fixed
polynomial sponge over `F`. -/
def stdHash (t : List F) : F :=
  t.foldl (fun a x => a * 131 + x + 7) 5

/-- Absorb an `Indexes` value (tagged, length-prefixed). -/
def encodeIndexes : Indexes → List F
  | .Dense s e => [0, (s : F), (e : F)]
  | .Sparse l => 1 :: ((l.length : Nat) : F) :: l.map (fun i => ((i : Nat) : F))

/-- Absorb a serialized `ProvableQueryResult` (spec prove step 4). -/
def encodeResult (res : ProvableQueryResult) : List F :=
  encodeIndexes res.indexes ++ (((res.columns.length : Nat) : F) ::
    res.columns.foldr (fun col acc =>
      (((col.length : Nat) : F) :: col.map toF) ++ acc) [])

/-- Absorb the wire commitments (spec prove step 7). -/
def encodeCommitments (cs : List Commitment) : List F :=
  ((cs.length : Nat) : F) ::
    cs.foldr (fun c acc => (((c.length : Nat) : F) :: c) ++ acc) []

/-- Absorb one subpolynomial term. -/
def encodeTerm (t : SumcheckSubpolynomialTerm) : List F :=
  t.1 :: ((t.2.length : Nat) : F) ::
    t.2.foldr (fun f acc => (((f.length : Nat) : F) :: f) ++ acc) []

/-- Absorb the sumcheck subpolynomial data (the sumcheck proof's wire
form). -/
def encodeSubpolys (sps : List SumcheckSubpolynomial) : List F :=
  ((sps.length : Nat) : F) ::
    sps.foldr (fun sp acc =>
      ((if sp.1 = SumcheckSubpolynomialType.Identity then (0 : F) else 1) ::
        ((sp.2.length : Nat) : F) ::
        sp.2.foldr (fun t acc2 => encodeTerm t ++ acc2) []) ++ acc) []

/-! ### Result evaluation (spec §4.8) -/

/-- Scatter the selected result entries back to their row positions inside
the padded hypercube table (unselected rows are zero). -/
def scatter (ixs : List Nat) (vals : List F) (m : Nat) : List F :=
  (List.range m).map (fun i => ((ixs.zip vals).lookup i).getD 0)

/-- Modelled from the spec: the verifier-side evaluation of the public result
— checks the indexes are valid and each decoded column has exactly
`indexes.len()` entries, then returns each result column MLE evaluated at the
sumcheck point. -/
def ProvableQueryResult.evaluate (res : ProvableQueryResult) (n m : Nat)
    (r : List F) : Except ProofError (List F) :=
  let ixs := res.indexes.toList
  if res.indexes.valid n && res.columns.all (fun col => col.length == ixs.length)
  then .ok (res.columns.map (fun col => mle (scatter ixs (col.map toF) m) r))
  else .error .DecodeError

/-- The hypercube dimension `ν = ⌈log₂ n⌉`: the least `ν` with `n ≤ 2^ν`
(`n = 1` is admissible and gives dimension `0`). -/
def clogTwo (n : Nat) : Nat :=
  match (List.range (n + 1)).find? (fun ν => n ≤ 2 ^ ν) with
  | some ν => ν
  | none => n

/-! ### QueryProof lifecycle (spec §4.9) -/

/-- Modelled from the spec: the evaluation proof of the commitment scheme
(inner-product argument), as an ideal functionality — the proof binds the
joint commitment, the generator offset, the evaluation point and the claimed
joint evaluation, and carries the folded column as opening witness. -/
structure EvaluationProof where
  jointCommitment : Commitment
  offset : Nat
  point : List F
  value : F
  witness : List F

/-- Modelled from the spec: verifying the ideal evaluation proof — the bound
tuple must match the verifier's recomputed one, and the witness must open the
joint commitment at the offset and evaluate to the claimed value. -/
def EvaluationProof.verify (ep : EvaluationProof) (C : Commitment) (k : Nat)
    (r : List F) (v : F) : Bool :=
  ceq ep.jointCommitment C && (ep.offset == k) && (ep.point == r)
    && (ep.value == v) && ceq (commit ep.offset ep.witness) ep.jointCommitment
    && (mle ep.witness ep.point == ep.value)

/-- Modelled from the spec: `QueryProof` (wire form) — the intermediate-MLE
commitments, the sumcheck proof (ideally, the subpolynomial data the engine
proves about), the pre-result MLE evaluation vector (anchored then
intermediate, at the sumcheck point), and the evaluation proof. -/
structure QueryProof where
  commitments : List Commitment
  subpolys : List SumcheckSubpolynomial
  preResultMleEvals : List F
  evaluationProof : EvaluationProof

/-- The counts a proof and result actually exhibit (spec verify step 6); the
post-result-challenge count is not independently observable on the wire —
both sides sample the plan-declared number — so that component is the
declared one. -/
def observedCounts (proof : QueryProof) (res : ProvableQueryResult)
    (declared : ProofCounts) : ProofCounts :=
  { degree := maxSubpolyDegree proof.subpolys
  , resultColumns := res.columns.length
  , subpolynomials := proof.subpolys.length
  , anchoredMles := proof.preResultMleEvals.length - proof.commitments.length
  , intermediateMles := proof.commitments.length
  , postResultChallenges := declared.postResultChallenges }

/-- The provable result the prover produces: `result_evaluate`'s indexes with
each full column restricted to the selected entries. -/
def resultOf (plan : ProofExecutionPlan) (A : TestAccessor) :
    ProvableQueryResult :=
  let rs := plan.resultEvaluate (plan.getLength A) A
  { indexes := rs.indexes
  , columns := rs.fullColumns.map (fun col => rs.indexes.toList.map (fun i => col.getD i 0)) }

/-- Transcript after absorbing the structural fingerprint (offset, length)
and the serialized result (spec steps 1—4). -/
def resultTranscript (plan : ProofExecutionPlan) (A : TestAccessor)
    (res : ProvableQueryResult) : List F :=
  ((plan.getOffset A : Nat) : F) :: ((plan.getLength A : Nat) : F) ::
    encodeResult res

/-- The post-result challenges (spec step 5; count = plan-declared). -/
def postChallenges (H : List F → F) (plan : ProofExecutionPlan)
    (A : TestAccessor) (res : ProvableQueryResult) : List F :=
  squeeze H (resultTranscript plan A res) plan.counts.postResultChallenges

/-- Transcript after absorbing the intermediate commitments (spec step 7). -/
def commTranscript (H : List F → F) (plan : ProofExecutionPlan)
    (A : TestAccessor) (res : ProvableQueryResult) (comms : List Commitment) :
    List F :=
  resultTranscript plan A res ++ postChallenges H plan A res
    ++ encodeCommitments comms

/-- The EQ random point `ρ` for the Identity constraints (§4.7). -/
def rhoOf (H : List F → F) (plan : ProofExecutionPlan) (A : TestAccessor)
    (res : ProvableQueryResult) (comms : List Commitment) : List F :=
  squeeze H (commTranscript H plan A res comms)
    (clogTwo (plan.getLength A))

/-- The per-subpolynomial Fiat–Shamir multipliers `γ` (spec step 8). -/
def gammaOf (H : List F → F) (plan : ProofExecutionPlan) (A : TestAccessor)
    (res : ProvableQueryResult) (comms : List Commitment) : List F :=
  squeeze H (commTranscript H plan A res comms ++ rhoOf H plan A res comms)
    plan.counts.subpolynomials

/-- Transcript after absorbing the sumcheck proof data. -/
def spTranscript (H : List F → F) (plan : ProofExecutionPlan)
    (A : TestAccessor) (res : ProvableQueryResult) (comms : List Commitment)
    (sps : List SumcheckSubpolynomial) : List F :=
  commTranscript H plan A res comms ++ rhoOf H plan A res comms
    ++ gammaOf H plan A res comms ++ encodeSubpolys sps

/-- The sumcheck challenge point `r` (spec step 9). -/
def rOf (H : List F → F) (plan : ProofExecutionPlan) (A : TestAccessor)
    (res : ProvableQueryResult) (comms : List Commitment)
    (sps : List SumcheckSubpolynomial) : List F :=
  squeeze H (spTranscript H plan A res comms sps)
    (clogTwo (plan.getLength A))

/-- Transcript after absorbing the claimed MLE evaluations (spec step 10). -/
def evalTranscript (H : List F → F) (plan : ProofExecutionPlan)
    (A : TestAccessor) (res : ProvableQueryResult) (comms : List Commitment)
    (sps : List SumcheckSubpolynomial) (evals : List F) : List F :=
  spTranscript H plan A res comms sps ++ rOf H plan A res comms sps ++ evals

/-- The transcript-derived coefficients folding the anchored and intermediate
MLEs into the single evaluation-proof instance (spec step 11). -/
def foldCoeffs (H : List F → F) (plan : ProofExecutionPlan) (A : TestAccessor)
    (res : ProvableQueryResult) (comms : List Commitment)
    (sps : List SumcheckSubpolynomial) (evals : List F) (j : Nat) : List F :=
  squeeze H (evalTranscript H plan A res comms sps evals) j

/-- The hypercube size `2^ν` of a plan over the given accessor. -/
def mOf (plan : ProofExecutionPlan) (A : TestAccessor) : Nat :=
  2 ^ clogTwo (plan.getLength A)

/-- The `ProofBuilder` state after `prover_evaluate` (spec prove step 6). -/
def provePb (H : List F → F) (plan : ProofExecutionPlan) (A : TestAccessor) :
    ProofBuilder :=
  plan.proverEvaluate
    (ProofBuilder.init (plan.getLength A) (postChallenges H plan A (resultOf plan A))) A

/-- The prover's wire commitments to the intermediate MLEs (spec step 7). -/
def proveComms (H : List F → F) (plan : ProofExecutionPlan) (A : TestAccessor) :
    List Commitment :=
  (provePb H plan A).intermediate.map (commit (plan.getOffset A))

/-- All pre-result MLE columns, anchored then intermediate. -/
def proveCols (H : List F → F) (plan : ProofExecutionPlan) (A : TestAccessor) :
    List (List F) :=
  (provePb H plan A).anchored ++ (provePb H plan A).intermediate

/-- The prover's sumcheck challenge point. -/
def proveR (H : List F → F) (plan : ProofExecutionPlan) (A : TestAccessor) :
    List F :=
  rOf H plan A (resultOf plan A) (proveComms H plan A) (provePb H plan A).subpolys

/-- The prover's EQ random point. -/
def proveRho (H : List F → F) (plan : ProofExecutionPlan) (A : TestAccessor) :
    List F :=
  rhoOf H plan A (resultOf plan A) (proveComms H plan A)

/-- The claimed pre-result MLE evaluations at the sumcheck point (spec step
10). -/
def proveEvals (H : List F → F) (plan : ProofExecutionPlan) (A : TestAccessor) :
    List F :=
  (proveCols H plan A).map (fun col => mle (pad col (mOf plan A)) (proveR H plan A))

/-- The prover's evaluation-proof folding coefficients. -/
def proveCs (H : List F → F) (plan : ProofExecutionPlan) (A : TestAccessor) :
    List F :=
  foldCoeffs H plan A (resultOf plan A) (proveComms H plan A)
    (provePb H plan A).subpolys (proveEvals H plan A) (proveCols H plan A).length

/-- Modelled from the spec: `QueryProof::new` — the prove path (spec §4.9
steps 1—12). -/
def QueryProof.new (H : List F → F) (plan : ProofExecutionPlan)
    (A : TestAccessor) : QueryProof × ProvableQueryResult :=
  ( { commitments := proveComms H plan A
    , subpolys := (provePb H plan A).subpolys
    , preResultMleEvals := proveEvals H plan A
    , evaluationProof :=
      { jointCommitment := foldVecs (proveCs H plan A)
          ((provePb H plan A).anchored.map (commit (plan.getOffset A))
            ++ proveComms H plan A)
      , offset := plan.getOffset A
      , point := proveR H plan A
      , value := dot (proveCs H plan A) (proveEvals H plan A)
      , witness := foldVecs (proveCs H plan A)
          ((proveCols H plan A).map (fun col => pad col (mOf plan A))) } }
  , resultOf plan A )

/-- Modelled from the spec: the verifier's count validation (verify step 6) —
the proof's observed counts must match the plan-declared ones, and the
evaluation vector must have one entry per anchored and intermediate MLE. -/
def countsOk (proof : QueryProof) (res : ProvableQueryResult)
    (counts : ProofCounts) : Bool :=
  (observedCounts proof res counts == counts)
    && (proof.preResultMleEvals.length
          == counts.anchoredMles + counts.intermediateMles)

/-- The verifier's sumcheck challenge point, recomputed from the wire
proof. -/
def verifyR (H : List F → F) (plan : ProofExecutionPlan) (A : TestAccessor)
    (proof : QueryProof) (res : ProvableQueryResult) : List F :=
  rOf H plan A res proof.commitments proof.subpolys

/-- The `VerificationBuilder` the verifier hands to `verifier_evaluate`
(spec verify step 10): queues fed by the recomputed result evaluations and
the proof's evaluation vector, the post-result challenges, and the
`random_evaluation` multiplier. -/
def verifyVb0 (H : List F → F) (plan : ProofExecutionPlan) (A : TestAccessor)
    (proof : QueryProof) (res : ProvableQueryResult)
    (resultEvals : List F) : VerificationBuilder :=
  { mleEvaluations :=
    { randomEvaluation :=
        eqEval (rhoOf H plan A res proof.commitments)
          (verifyR H plan A proof res) }
  , resultEvals := resultEvals
  , anchoredEvals := proof.preResultMleEvals.take plan.counts.anchoredMles
  , intermediateEvals := proof.preResultMleEvals.drop plan.counts.anchoredMles
  , challenges := postChallenges H plan A res
  , produced := []
  , anchoredCommitments := [] }

/-- The verifier's evaluation-proof folding coefficients. -/
def verifyCs (H : List F → F) (plan : ProofExecutionPlan) (A : TestAccessor)
    (proof : QueryProof) (res : ProvableQueryResult) : List F :=
  foldCoeffs H plan A res proof.commitments proof.subpolys
    proof.preResultMleEvals
    (plan.counts.anchoredMles + plan.counts.intermediateMles)

/-- Modelled from the spec: `QueryProof::verify` — the verify path (spec
§4.9): validate counts, retrace the transcript, check the sumcheck sum
against zero, recompute the result MLE evaluations from the public result,
run the plan's `verifier_evaluate`, compare the recombined composite
evaluation, and verify the evaluation proof against the expected joint
commitment. -/
def QueryProof.verify (H : List F → F) (proof : QueryProof)
    (plan : ProofExecutionPlan) (A : TestAccessor)
    (res : ProvableQueryResult) : Except ProofError QueryData :=
  if countsOk proof res plan.counts then
    if compositeSum (clogTwo (plan.getLength A))
        (rhoOf H plan A res proof.commitments)
        (gammaOf H plan A res proof.commitments) proof.subpolys = 0 then
      match res.evaluate (plan.getLength A) (mOf plan A)
          (verifyR H plan A proof res) with
      | .error e => .error e
      | .ok resultEvals =>
        match plan.verifierEvaluate (verifyVb0 H plan A proof res resultEvals) A with
        | .error e => .error e
        | .ok vb =>
          if dot (gammaOf H plan A res proof.commitments) vb.produced
              = compositeEval (mOf plan A) (rhoOf H plan A res proof.commitments)
                  (gammaOf H plan A res proof.commitments)
                  (verifyR H plan A proof res) proof.subpolys then
            if proof.evaluationProof.verify
                (foldVecs (verifyCs H plan A proof res)
                  (vb.anchoredCommitments ++ proof.commitments))
                (plan.getOffset A) (verifyR H plan A proof res)
                (dot (verifyCs H plan A proof res) proof.preResultMleEvals)
            then
              .ok { verificationHash :=
                      H (evalTranscript H plan A res proof.commitments
                          proof.subpolys proof.preResultMleEvals
                          ++ verifyCs H plan A proof res)
                  , table := plan.resultFields.zip res.columns }
            else .error .InnerProductFailure
          else .error .EvaluationMismatch
    else .error .SumcheckFailure
  else .error .StructuralMismatch

/-- `true` exactly on `Except.error`. -/
def isError {α : Type} (x : Except ProofError α) : Bool :=
  match x with
  | .error _ => true
  | .ok _ => false

/-- `true` when verification succeeded with the given result table. -/
def okTable (x : Except ProofError QueryData) (t : List (String × List Int)) :
    Bool :=
  match x with
  | .ok qd => qd.table == t
  | .error _ => false

/-- `true` when verification succeeded with the given result table and a
nonzero verification hash. -/
def okTableHash (x : Except ProofError QueryData)
    (t : List (String × List Int)) : Bool :=
  match x with
  | .ok qd => (qd.table == t) && !(qd.verificationHash == 0)
  | .error _ => false

/-! ### Honest runs -/

/-- A subpolynomial is well-formed (spec §3): Identity-kind vanishes at every
boolean hypercube point, ZeroSum-kind sums to zero over the hypercube. -/
def subpolySatisfied (ν : Nat) (sp : SumcheckSubpolynomial) : Prop :=
  (sp.1 = SumcheckSubpolynomialType.Identity →
    ∀ i < 2 ^ ν, subpolyEvalAt i sp = 0)
  ∧ (sp.1 = SumcheckSubpolynomialType.ZeroSum →
    ((List.range (2 ^ ν)).map (fun i => subpolyEvalAt i sp)).sum = 0)

instance (ν : Nat) (sp : SumcheckSubpolynomial) :
    Decidable (subpolySatisfied ν sp) := by
  unfold subpolySatisfied
  infer_instance

/-- The result-MLE evaluations an honest verifier recomputes from the
prover's own result. -/
def honestResultEvals (H : List F → F) (plan : ProofExecutionPlan)
    (A : TestAccessor) : List F :=
  (resultOf plan A).columns.map (fun col =>
    mle (scatter (resultOf plan A).indexes.toList (col.map toF) (mOf plan A))
      (proveR H plan A))

/-- The `VerificationBuilder` of the honest run: every queue filled with the
prover's true values. -/
def honestVb0 (H : List F → F) (plan : ProofExecutionPlan) (A : TestAccessor) :
    VerificationBuilder :=
  { mleEvaluations :=
    { randomEvaluation := eqEval (proveRho H plan A) (proveR H plan A) }
  , resultEvals := honestResultEvals H plan A
  , anchoredEvals := (provePb H plan A).anchored.map (fun col =>
      mle (pad col (mOf plan A)) (proveR H plan A))
  , intermediateEvals := (provePb H plan A).intermediate.map (fun col =>
      mle (pad col (mOf plan A)) (proveR H plan A))
  , challenges := postChallenges H plan A (resultOf plan A)
  , produced := []
  , anchoredCommitments := [] }

/-- An honestly authored plan over a given accessor and transcript hash: the
declared counts match what the passes produce, the result indexes are valid,
every emitted subpolynomial constraint holds, and `verifier_evaluate` mirrors
the prover — on the honest builder it succeeds, produces exactly the true
subpolynomial evaluations at the sumcheck point (Identity ones scaled by
`random_evaluation`), and stashes exactly the true anchored commitments. -/
structure HonestRun (H : List F → F) (plan : ProofExecutionPlan)
    (A : TestAccessor) : Prop where
  resultColumnsLen :
    (plan.resultEvaluate (plan.getLength A) A).fullColumns.length
      = plan.counts.resultColumns
  anchoredLen : (provePb H plan A).anchored.length = plan.counts.anchoredMles
  intermediateLen :
    (provePb H plan A).intermediate.length = plan.counts.intermediateMles
  subpolysLen :
    (provePb H plan A).subpolys.length = plan.counts.subpolynomials
  degreeEq : maxSubpolyDegree (provePb H plan A).subpolys = plan.counts.degree
  indexesOk :
    ((resultOf plan A).indexes.valid (plan.getLength A)) = true
  constraintsHold : ∀ sp ∈ (provePb H plan A).subpolys,
    subpolySatisfied (clogTwo (plan.getLength A)) sp
  mirrorProduced :
    (plan.verifierEvaluate (honestVb0 H plan A) A).map
        (fun vb => vb.produced)
      = Except.ok ((provePb H plan A).subpolys.map
          (subpolyMleEval (mOf plan A) (proveRho H plan A) (proveR H plan A)))
  mirrorAnchored :
    (plan.verifierEvaluate (honestVb0 H plan A) A).map
        (fun vb => vb.anchoredCommitments)
      = Except.ok ((provePb H plan A).anchored.map
          (commit (plan.getOffset A)))

/-! ### The test execution plans (from `query_proof_test.rs`) -/

/-- The column reference `sxt.test.x` used by the square plans. -/
def xRef : ColumnRef := { table := "sxt.test", column := "x" }

/-- The accessor `OwnedTableTestAccessor::new_from_table` over the table
`sxt.test` with the single bigint column `x` and the given generator
offset. -/
def ownedTableAccessor (offsetGenerators : Nat) (xs : List Int) : TestAccessor :=
  { offset := offsetGenerators, data := [(xRef, xs)] }

/-- `TrivialTestProofExecutionPlan`: proves that every entry in the result is
zero — result column `a1` with Sparse indexes `[0]` over a column filled with
`column_fill_value`, one Identity subpolynomial `1·col`, and the verifier
asserting the result MLE evaluation is zero before producing the constant
`evaluation` as its subpolynomial evaluation. -/
def TrivialTestProofExecutionPlan (length offsetGenerators : Nat)
    (columnFillValue evaluationValue : Int) (anchoredMleCount : Nat) :
    ProofExecutionPlan :=
  { counts :=
    { degree := 2, resultColumns := 1, subpolynomials := 1
    , anchoredMles := anchoredMleCount, intermediateMles := 0
    , postResultChallenges := 0 }
  , getLength := fun _ => length
  , getOffset := fun _ => offsetGenerators
  , resultEvaluate := fun n _ =>
      { indexes := Indexes.Sparse [0]
      , fullColumns := [List.replicate n columnFillValue]
      , requestedChallenges := 0 }
  , proverEvaluate := fun pb _ =>
      pb.produceSumcheckSubpolynomial
        (SumcheckSubpolynomialType.Identity,
          [(1, [List.replicate pb.tableLength (toF columnFillValue)])])
  , verifierEvaluate := fun vb _ =>
      let p := vb.consumeResultMle
      if p.1 = 0 then
        .ok (p.2.produceSumcheckSubpolynomialEvaluation (toF evaluationValue))
      else .error .StructuralMismatch
  , resultFields := ["a1"] }

/-- `SquareTestProofExecutionPlan`: proves `res_i = x_i · x_i` where the
commitment for `x` is known — one anchored MLE `x` and one Identity
subpolynomial `res − x·x`; the verifier multiplies the expected x-commitment
by `anchored_commit_multiplier`. -/
def SquareTestProofExecutionPlan (res : List Int)
    (anchoredCommitMultiplier : Int) : ProofExecutionPlan :=
  { counts :=
    { degree := 3, resultColumns := 1, subpolynomials := 1
    , anchoredMles := 1, intermediateMles := 0, postResultChallenges := 0 }
  , getLength := fun _ => 2
  , getOffset := fun A => A.getOffset
  , resultEvaluate := fun _ _ =>
      { indexes := Indexes.Sparse [0, 1]
      , fullColumns := [res]
      , requestedChallenges := 0 }
  , proverEvaluate := fun pb A =>
      let x := (A.getColumn xRef).map toF
      (pb.produceAnchoredMle x).produceSumcheckSubpolynomial
        (SumcheckSubpolynomialType.Identity,
          [(1, [res.map toF]), (-1, [x, x])])
  , verifierEvaluate := fun vb A =>
      let p1 := vb.consumeResultMle
      let xCommit := vsmul (toF anchoredCommitMultiplier) (A.getCommitment xRef)
      let p2 := p1.2.consumeAnchoredMle xCommit
      .ok (p2.2.produceSumcheckSubpolynomialEvaluation
        (p2.2.mleEvaluations.randomEvaluation * (p1.1 - p2.1 * p2.1)))
  , resultFields := ["a1"] }

/-- `DoubleSquareTestProofExecutionPlan`: proves `z_i = x_i · x_i` and
`res_i = z_i · z_i` where the commitment for `x` is known — one anchored MLE
`x`, one intermediate MLE `z` whose commitment travels on the wire, and two
Identity subpolynomials `z − x·x` and `res − z·z`. -/
def DoubleSquareTestProofExecutionPlan (res z : List Int) :
    ProofExecutionPlan :=
  { counts :=
    { degree := 3, resultColumns := 1, subpolynomials := 2
    , anchoredMles := 1, intermediateMles := 1, postResultChallenges := 0 }
  , getLength := fun _ => 2
  , getOffset := fun A => A.getOffset
  , resultEvaluate := fun _ _ =>
      { indexes := Indexes.Sparse [0, 1]
      , fullColumns := [res]
      , requestedChallenges := 0 }
  , proverEvaluate := fun pb A =>
      let x := (A.getColumn xRef).map toF
      let zF := z.map toF
      let pb1 := (pb.produceAnchoredMle x).produceIntermediateMle zF
      let pb2 := pb1.produceSumcheckSubpolynomial
        (SumcheckSubpolynomialType.Identity, [(1, [zF]), (-1, [x, x])])
      pb2.produceSumcheckSubpolynomial
        (SumcheckSubpolynomialType.Identity,
          [(1, [res.map toF]), (-1, [zF, zF])])
  , verifierEvaluate := fun vb A =>
      let xCommit := A.getCommitment xRef
      let p1 := vb.consumeResultMle
      let p2 := p1.2.consumeAnchoredMle xCommit
      let p3 := p2.2.consumeIntermediateMle
      let vb1 := p3.2.produceSumcheckSubpolynomialEvaluation
        (p3.2.mleEvaluations.randomEvaluation * (p3.1 - p2.1 * p2.1))
      .ok (vb1.produceSumcheckSubpolynomialEvaluation
        (vb1.mleEvaluations.randomEvaluation * (p1.1 - p3.1 * p3.1)))
  , resultFields := ["a1"] }

/-- `ChallengeTestProofExecutionPlan`: proves `α·res_i = α·x_i·x_i` where `α`
is the first of two post-result challenges (the second, `β`, is sampled but
unused). -/
def ChallengeTestProofExecutionPlan : ProofExecutionPlan :=
  { counts :=
    { degree := 3, resultColumns := 1, subpolynomials := 1
    , anchoredMles := 1, intermediateMles := 0, postResultChallenges := 2 }
  , getLength := fun _ => 2
  , getOffset := fun A => A.getOffset
  , resultEvaluate := fun _ _ =>
      { indexes := Indexes.Sparse [0, 1]
      , fullColumns := [[9, 25]]
      , requestedChallenges := 2 }
  , proverEvaluate := fun pb A =>
      let x := (A.getColumn xRef).map toF
      let q1 := pb.consumePostResultChallenge
      let q2 := q1.2.consumePostResultChallenge
      (q2.2.produceAnchoredMle x).produceSumcheckSubpolynomial
        (SumcheckSubpolynomialType.Identity,
          [(q1.1, [([9, 25] : List Int).map toF]), (-q1.1, [x, x])])
  , verifierEvaluate := fun vb A =>
      let q1 := vb.consumePostResultChallenge
      let q2 := q1.2.consumePostResultChallenge
      let p1 := q2.2.consumeResultMle
      let xCommit := A.getCommitment xRef
      let p2 := p1.2.consumeAnchoredMle xCommit
      .ok (p2.2.produceSumcheckSubpolynomialEvaluation
        (p2.2.mleEvaluations.randomEvaluation
          * (q1.1 * p1.1 - q1.1 * p2.1 * p2.1)))
  , resultFields := ["a1"] }

deriving instance DecidableEq for Except

/-- Remove the last selected index (the tampering of
`veriy_fails_if_result_mle_evaluation_fails`). -/
def Indexes.popLast : Indexes → Indexes
  | .Sparse l => .Sparse l.dropLast
  | x => x

theorem vadd_getD (a b : List F) (i : Nat) :
    (vadd a b).getD i 0 = a.getD i 0 + b.getD i 0 := by
  induction a generalizing b i with
  | nil => cases b <;> simp [vadd]
  | cons x xs ih =>
    cases b with
    | nil => simp [vadd]
    | cons y ys =>
      cases i with
      | zero => simp [vadd]
      | succ j => simpa [vadd] using ih ys j

theorem vsmul_getD (c : F) (a : List F) (i : Nat) :
    (vsmul c a).getD i 0 = c * a.getD i 0 := by
  induction a generalizing i with
  | nil => simp [vsmul]
  | cons x xs ih =>
    cases i with
    | zero => simp [vsmul]
    | succ j => simpa [vsmul] using ih j

theorem pad_getD (a : List F) (m : Nat) (i : Nat) :
    (pad a m).getD i 0 = a.getD i 0 := by
  unfold pad
  rcases lt_or_ge i a.length with h | h
  · rw [List.getD_append _ _ _ _ h]
  · rw [List.getD_eq_default _ _ h, List.getD_append_right _ _ _ _ h]
    rcases lt_or_ge (i - a.length) (m - a.length) with h2 | h2
    · simp [List.getD_eq_getElem?_getD, List.getElem?_replicate, h2]
    · rw [List.getD_eq_default]
      simpa using h2

theorem combine_getD (c : List F) (t : F) (i : Nat) :
    (combine c t).getD i 0 =
      (1 - t) * c.getD (2 * i) 0 + t * c.getD (2 * i + 1) 0 := by
  match c with
  | [] => simp [combine]
  | [a] =>
    cases i with
    | zero => simp [combine]
    | succ j =>
      have e1 : (combine [a] t).getD (j + 1) 0 = 0 := by
        simp [combine]
      have e2 : ([a] : List F).getD (2 * (j + 1)) 0 = 0 := by
        apply List.getD_eq_default
        simp
        omega
      have e3 : ([a] : List F).getD (2 * (j + 1) + 1) 0 = 0 := by
        apply List.getD_eq_default
        simp
      rw [e1, e2, e3]
      ring
  | a :: b :: rest =>
    cases i with
    | zero => simp [combine]
    | succ j =>
      have ih := combine_getD rest t j
      have h1 : 2 * (j + 1) = 2 * j + 1 + 1 := by ring
      have h2 : 2 * (j + 1) + 1 = 2 * j + 1 + 1 + 1 := by ring
      simpa [combine, h1, h2] using ih

theorem list_sum_add (l : List Nat) (f g : Nat → F) :
    ((l.map (fun i => f i + g i)).sum) = (l.map f).sum + (l.map g).sum := by
  induction l with
  | nil => simp
  | cons x xs ih => simp [ih]; ring

theorem list_sum_mul_left (l : List Nat) (c : F) (f : Nat → F) :
    ((l.map (fun i => c * f i)).sum) = c * (l.map f).sum := by
  induction l with
  | nil => simp
  | cons x xs ih => simp [ih]; ring

theorem sum_range_double (m : Nat) (f : Nat → F) :
    (((List.range (2 * m)).map f).sum) =
      ((List.range m).map (fun i => f (2 * i) + f (2 * i + 1))).sum := by
  induction m with
  | zero => simp
  | succ k ih =>
    have h : 2 * (k + 1) = (2 * k + 1) + 1 := by ring
    rw [h, List.range_succ, List.range_succ, List.range_succ]
    simp [ih]

theorem mle_eq_sum (c : List F) (r : List F) :
    mle c r = ((List.range (2 ^ r.length)).map
      (fun i => c.getD i 0 * weight r i)).sum := by
  induction r generalizing c with
  | nil =>
    have h1 : List.range (2 ^ ([] : List F).length) = [0] := by
      have : (2 : Nat) ^ ([] : List F).length = 0 + 1 := by simp
      rw [this, List.range_succ, List.range_zero, List.nil_append]
    rw [h1]
    simp [mle, weight]
    cases c <;> simp [List.getD]
  | cons t ts ih =>
    have h : (2 : Nat) ^ (t :: ts).length = 2 * 2 ^ ts.length := by
      simp [List.length_cons, pow_succ]
      ring
    rw [mle, ih, h, sum_range_double]
    apply congrArg
    apply List.map_congr_left
    intro i _
    rw [combine_getD]
    have hw1 : weight (t :: ts) (2 * i) = (1 - t) * weight ts i := by
      have : 2 * i % 2 = 0 := by omega
      simp [weight, this, Nat.mul_div_cancel_left]
    have hw2 : weight (t :: ts) (2 * i + 1) = t * weight ts i := by
      have h1 : (2 * i + 1) % 2 = 1 := by omega
      have h2 : (2 * i + 1) / 2 = i := by omega
      simp [weight, h1, h2]
    rw [hw1, hw2]
    ring

theorem mle_vadd (a b : List F) (r : List F) :
    mle (vadd a b) r = mle a r + mle b r := by
  rw [mle_eq_sum, mle_eq_sum, mle_eq_sum, ← list_sum_add]
  apply congrArg
  apply List.map_congr_left
  intro i _
  rw [vadd_getD]
  ring

theorem mle_vsmul (c : F) (a : List F) (r : List F) :
    mle (vsmul c a) r = c * mle a r := by
  rw [mle_eq_sum, mle_eq_sum, ← list_sum_mul_left]
  apply congrArg
  apply List.map_congr_left
  intro i _
  rw [vsmul_getD]
  ring

theorem mle_pad (a : List F) (m : Nat) (r : List F) :
    mle (pad a m) r = mle a r := by
  rw [mle_eq_sum, mle_eq_sum]
  apply congrArg
  apply List.map_congr_left
  intro i _
  rw [pad_getD]

theorem mle_nil (r : List F) : mle [] r = 0 := by
  rw [mle_eq_sum]
  simp

theorem pad_length (a : List F) (m : Nat) : (pad a m).length = max a.length m := by
  simp [pad]
  omega

theorem ceq_of_getD {a b : List F} (h : ∀ i, a.getD i 0 = b.getD i 0) :
    ceq a b = true := by
  unfold ceq
  rw [beq_iff_eq]
  apply List.ext_getElem
  · rw [pad_length, pad_length]
    omega
  · intro i h1 h2
    have e1 : (pad a (max a.length b.length))[i] =
        (pad a (max a.length b.length)).getD i 0 :=
      (List.getD_eq_getElem _ _ h1).symm
    have e2 : (pad b (max a.length b.length))[i] =
        (pad b (max a.length b.length)).getD i 0 :=
      (List.getD_eq_getElem _ _ h2).symm
    rw [e1, e2, pad_getD, pad_getD]
    exact h i

theorem ceq_self (a : List F) : ceq a a = true := by
  apply ceq_of_getD
  intro i
  rfl

theorem ceq_of_eq {a b : List F} (h : a = b) : ceq a b = true := by
  subst h
  exact ceq_self a

theorem commit_getD (k : Nat) (a : List F) (i : Nat) :
    (commit k a).getD i 0 = if i < k then 0 else a.getD (i - k) 0 := by
  unfold commit
  rcases lt_or_ge i k with h | h
  · rw [List.getD_append _ _ _ _ (by simpa using h), if_pos h]
    simp [List.getD_eq_getElem?_getD, List.getElem?_replicate, h]
  · rw [List.getD_append_right _ _ _ _ (by simpa using h), if_neg (not_lt.mpr h)]
    simp

theorem foldVecs_getD (cs : List F) (cols : List (List F)) (i : Nat) :
    (foldVecs cs cols).getD i 0 =
      (List.zipWith (fun c col => c * List.getD col i 0) cs cols).sum := by
  induction cs generalizing cols with
  | nil => simp [foldVecs]
  | cons c cst ih =>
    cases cols with
    | nil => simp [foldVecs]
    | cons col colt =>
      show (vadd (vsmul c col) (foldVecs cst colt)).getD i 0 = _
      rw [vadd_getD, vsmul_getD, ih colt]
      simp [List.zipWith]

theorem sum_zipWith_zero (cs : List F) (cols : List (List F)) :
    (List.zipWith (fun (_ : F) (_ : List F) => (0 : F)) cs cols).sum = 0 := by
  induction cs generalizing cols with
  | nil => simp
  | cons c cst ih =>
    cases cols with
    | nil => simp
    | cons col colt => simp [List.zipWith, ih]

theorem mle_foldVecs (cs : List F) (cols : List (List F)) (r : List F) :
    mle (foldVecs cs cols) r =
      (List.zipWith (fun c col => c * mle col r) cs cols).sum := by
  induction cs generalizing cols with
  | nil => simp [foldVecs, mle_nil]
  | cons c cst ih =>
    cases cols with
    | nil => simp [foldVecs, mle_nil]
    | cons col colt =>
      show mle (vadd (vsmul c col) (foldVecs cst colt)) r = _
      rw [mle_vadd, mle_vsmul, ih colt]
      simp [List.zipWith]

theorem ceq_commit_foldVecs (k : Nat) (cs : List F) (cols : List (List F)) :
    ceq (commit k (foldVecs cs cols)) (foldVecs cs (cols.map (commit k))) = true := by
  apply ceq_of_getD
  intro i
  rw [commit_getD, foldVecs_getD, foldVecs_getD, List.zipWith_map_right]
  have hfun : (fun (c : F) (col : List F) => c * (commit k col).getD i 0) =
      fun (c : F) (col : List F) =>
        if i < k then (0 : F) else c * col.getD (i - k) 0 := by
    funext c col
    rw [commit_getD]
    rcases lt_or_ge i k with h | h
    · simp [h]
    · simp [not_lt.mpr h]
  rw [hfun]
  rcases lt_or_ge i k with h | h
  · rw [if_pos h]
    have hfun2 : (fun (c : F) (col : List F) =>
        if i < k then (0 : F) else c * col.getD (i - k) 0) =
        fun (_ : F) (_ : List F) => (0 : F) := by
      funext c col
      rw [if_pos h]
    rw [hfun2, sum_zipWith_zero]
  · rw [if_neg (not_lt.mpr h)]
    have hfun2 : (fun (c : F) (col : List F) =>
        if i < k then (0 : F) else c * col.getD (i - k) 0) =
        fun (c : F) (col : List F) => c * col.getD (i - k) 0 := by
      funext c col
      rw [if_neg (not_lt.mpr h)]
    rw [hfun2]

theorem dot_zeros (γ l : List F) (h : ∀ x ∈ l, x = 0) : dot γ l = 0 := by
  induction γ generalizing l with
  | nil => simp [dot]
  | cons c ct ih =>
    cases l with
    | nil => simp [dot]
    | cons x xt =>
      have hx : x = 0 := h x (by simp)
      have ht : ∀ y ∈ xt, y = 0 := fun y hy => h y (by simp [hy])
      show (List.zipWith (· * ·) (c :: ct) (x :: xt)).sum = 0
      rw [List.zipWith_cons_cons]
      simp only [List.sum_cons]
      rw [hx, mul_zero, zero_add]
      exact ih xt ht

theorem subpolySum_eq_zero (ν : Nat) (ρ : List F) (sp : SumcheckSubpolynomial)
    (h : subpolySatisfied ν sp) : subpolySum ν ρ sp = 0 := by
  unfold subpolySum
  rcases sp with ⟨kind, terms⟩
  cases kind with
  | Identity =>
    have hz := h.1 rfl
    have : ∀ i ∈ List.range (2 ^ ν),
        (if (SumcheckSubpolynomialType.Identity, terms).1
            = SumcheckSubpolynomialType.Identity then eqEval ρ (bitsOf ν i) else 1)
          * subpolyEvalAt i (SumcheckSubpolynomialType.Identity, terms) = 0 := by
      intro i hi
      rw [hz i (List.mem_range.mp hi), mul_zero]
    rw [List.map_congr_left this]
    simp
  | ZeroSum =>
    have hz := h.2 rfl
    have : ∀ i ∈ List.range (2 ^ ν),
        (if (SumcheckSubpolynomialType.ZeroSum, terms).1
            = SumcheckSubpolynomialType.Identity then eqEval ρ (bitsOf ν i) else 1)
          * subpolyEvalAt i (SumcheckSubpolynomialType.ZeroSum, terms)
        = subpolyEvalAt i (SumcheckSubpolynomialType.ZeroSum, terms) := by
      intro i _
      simp
    rw [List.map_congr_left this]
    exact hz

theorem compositeSum_eq_zero (ν : Nat) (ρ γ : List F)
    (sps : List SumcheckSubpolynomial)
    (h : ∀ sp ∈ sps, subpolySatisfied ν sp) :
    compositeSum ν ρ γ sps = 0 := by
  unfold compositeSum
  apply dot_zeros
  intro x hx
  rcases List.mem_map.mp hx with ⟨sp, hsp, rfl⟩
  exact subpolySum_eq_zero ν ρ sp (h sp hsp)

theorem ceq_commit_foldVecs_pad (k m : Nat) (cs : List F)
    (cols : List (List F)) :
    ceq (commit k (foldVecs cs (cols.map (fun col => pad col m))))
      (foldVecs cs (cols.map (commit k))) = true := by
  apply ceq_of_getD
  intro i
  rw [commit_getD, foldVecs_getD, foldVecs_getD, List.zipWith_map_right,
    List.zipWith_map_right]
  have hfun : (fun (c : F) (col : List F) => c * (commit k col).getD i 0) =
      fun (c : F) (col : List F) =>
        if i < k then (0 : F) else c * col.getD (i - k) 0 := by
    funext c col
    rw [commit_getD]
    rcases lt_or_ge i k with h | h
    · simp [h]
    · simp [not_lt.mpr h]
  rw [hfun]
  rcases lt_or_ge i k with h | h
  · rw [if_pos h]
    have hfun2 : (fun (c : F) (col : List F) =>
        if i < k then (0 : F) else c * col.getD (i - k) 0) =
        fun (_ : F) (_ : List F) => (0 : F) := by
      funext c col
      rw [if_pos h]
    rw [hfun2, sum_zipWith_zero]
  · rw [if_neg (not_lt.mpr h)]
    have hfun2 : (fun (c : F) (col : List F) =>
        if i < k then (0 : F) else c * col.getD (i - k) 0) =
        fun (c : F) (col : List F) => c * col.getD (i - k) 0 := by
      funext c col
      rw [if_neg (not_lt.mpr h)]
    rw [hfun2]
    have hfun3 : (fun (c : F) (col : List F) => c * (pad col m).getD (i - k) 0)
        = fun (c : F) (col : List F) => c * col.getD (i - k) 0 := by
      funext c col
      rw [pad_getD]
    rw [hfun3]

theorem mle_foldVecs_pad (cs : List F) (cols : List (List F)) (m : Nat)
    (r : List F) :
    mle (foldVecs cs (cols.map (fun col => pad col m))) r
      = dot cs (cols.map (fun col => mle (pad col m) r)) := by
  rw [mle_foldVecs]
  unfold dot
  rw [List.zipWith_map_right, List.zipWith_map_right]

theorem okTable_of_map {x : Except ProofError QueryData}
    {t : List (String × List Int)}
    (h : x.map (fun qd => qd.table) = Except.ok t) : okTable x t = true := by
  cases x with
  | error e => simp [Except.map] at h
  | ok qd =>
    simp only [Except.map, Except.ok.injEq] at h
    simp [okTable, h]

theorem verify_new_complete (H : List F → F) (plan : ProofExecutionPlan)
    (A : TestAccessor) (hr : HonestRun H plan A) :
    (QueryProof.verify H (QueryProof.new H plan A).1 plan A
        (QueryProof.new H plan A).2).map (fun qd => qd.table)
      = Except.ok (plan.resultFields.zip (resultOf plan A).columns) := by
  have e1 : (QueryProof.new H plan A).2 = resultOf plan A := rfl
  have e2 : (QueryProof.new H plan A).1.commitments = proveComms H plan A := rfl
  have e3 : (QueryProof.new H plan A).1.subpolys = (provePb H plan A).subpolys := rfl
  have e4 : (QueryProof.new H plan A).1.preResultMleEvals = proveEvals H plan A := rfl
  have e5 : (QueryProof.new H plan A).1.evaluationProof =
      { jointCommitment := foldVecs (proveCs H plan A)
          ((provePb H plan A).anchored.map (commit (plan.getOffset A))
            ++ proveComms H plan A)
      , offset := plan.getOffset A
      , point := proveR H plan A
      , value := dot (proveCs H plan A) (proveEvals H plan A)
      , witness := foldVecs (proveCs H plan A)
          ((proveCols H plan A).map (fun col => pad col (mOf plan A))) } := rfl
  have e6 : verifyR H plan A (QueryProof.new H plan A).1 (resultOf plan A)
      = proveR H plan A := rfl
  have hcolsLen : (proveCols H plan A).length
      = plan.counts.anchoredMles + plan.counts.intermediateMles := by
    unfold proveCols
    rw [List.length_append, hr.anchoredLen, hr.intermediateLen]
  have hevalsLen : (proveEvals H plan A).length
      = plan.counts.anchoredMles + plan.counts.intermediateMles := by
    unfold proveEvals
    rw [List.length_map]
    exact hcolsLen
  have hcommsLen : (proveComms H plan A).length = plan.counts.intermediateMles := by
    unfold proveComms
    rw [List.length_map, hr.intermediateLen]
  have hresCols : (resultOf plan A).columns.length = plan.counts.resultColumns := by
    unfold resultOf
    simp only [List.length_map]
    exact hr.resultColumnsLen
  have h1 : countsOk (QueryProof.new H plan A).1 (resultOf plan A) plan.counts
      = true := by
    unfold countsOk observedCounts
    rw [e2, e3, e4]
    rw [Bool.and_eq_true, beq_iff_eq, beq_iff_eq]
    constructor
    · rw [hr.degreeEq, hresCols, hr.subpolysLen, hevalsLen, hcommsLen,
        Nat.add_sub_cancel]
    · rw [hevalsLen]
  have h2 : compositeSum (clogTwo (plan.getLength A))
      (rhoOf H plan A (resultOf plan A) (proveComms H plan A))
      (gammaOf H plan A (resultOf plan A) (proveComms H plan A))
      (provePb H plan A).subpolys = 0 :=
    compositeSum_eq_zero _ _ _ _ hr.constraintsHold
  have hre : ∀ col ∈ (resultOf plan A).columns,
      col.length = (resultOf plan A).indexes.toList.length := by
    intro col hcol
    unfold resultOf at hcol
    simp only [List.mem_map] at hcol
    rcases hcol with ⟨c, _, rfl⟩
    rw [List.length_map]
    rfl
  have h3 : (resultOf plan A).evaluate (plan.getLength A) (mOf plan A)
      (proveR H plan A) = Except.ok (honestResultEvals H plan A) := by
    unfold ProvableQueryResult.evaluate honestResultEvals
    have hcond : ((resultOf plan A).indexes.valid (plan.getLength A)
        && (resultOf plan A).columns.all
          (fun col => col.length == (resultOf plan A).indexes.toList.length))
        = true := by
      rw [Bool.and_eq_true]
      refine ⟨hr.indexesOk, ?_⟩
      rw [List.all_eq_true]
      intro col hcol
      rw [beq_iff_eq]
      exact hre col hcol
    rw [if_pos hcond]
  have htake : (proveEvals H plan A).take plan.counts.anchoredMles
      = (provePb H plan A).anchored.map
          (fun col => mle (pad col (mOf plan A)) (proveR H plan A)) := by
    unfold proveEvals proveCols
    rw [List.map_append, ← hr.anchoredLen,
      ← List.length_map ((provePb H plan A).anchored)
        (fun col => mle (pad col (mOf plan A)) (proveR H plan A))]
    exact List.take_left _ _
  have hdrop : (proveEvals H plan A).drop plan.counts.anchoredMles
      = (provePb H plan A).intermediate.map
          (fun col => mle (pad col (mOf plan A)) (proveR H plan A)) := by
    unfold proveEvals proveCols
    rw [List.map_append, ← hr.anchoredLen,
      ← List.length_map ((provePb H plan A).anchored)
        (fun col => mle (pad col (mOf plan A)) (proveR H plan A))]
    exact List.drop_left _ _
  have hvb0 : verifyVb0 H plan A (QueryProof.new H plan A).1 (resultOf plan A)
      (honestResultEvals H plan A) = honestVb0 H plan A := by
    unfold verifyVb0 honestVb0 verifyR proveRho
    rw [e2, e3, e4, htake, hdrop]
    unfold proveR
    rfl
  have e7 : verifyCs H plan A (QueryProof.new H plan A).1 (resultOf plan A)
      = proveCs H plan A := by
    unfold verifyCs proveCs
    rw [e2, e3, e4, ← hcolsLen]
  rcases hok : plan.verifierEvaluate (honestVb0 H plan A) A with e | vb
  · exfalso
    have := hr.mirrorProduced
    rw [hok] at this
    simp [Except.map] at this
  · have hprod : vb.produced = (provePb H plan A).subpolys.map
        (subpolyMleEval (mOf plan A) (proveRho H plan A) (proveR H plan A)) := by
      have := hr.mirrorProduced
      rw [hok] at this
      simpa [Except.map] using this
    have hanch : vb.anchoredCommitments = (provePb H plan A).anchored.map
        (commit (plan.getOffset A)) := by
      have := hr.mirrorAnchored
      rw [hok] at this
      simpa [Except.map] using this
    have h5 : dot (gammaOf H plan A (resultOf plan A) (proveComms H plan A))
        vb.produced
        = compositeEval (mOf plan A)
            (rhoOf H plan A (resultOf plan A) (proveComms H plan A))
            (gammaOf H plan A (resultOf plan A) (proveComms H plan A))
            (proveR H plan A) (provePb H plan A).subpolys := by
      rw [hprod]
      unfold compositeEval proveRho
      rfl
    have h6 : EvaluationProof.verify
        { jointCommitment := foldVecs (proveCs H plan A)
            ((provePb H plan A).anchored.map (commit (plan.getOffset A))
              ++ proveComms H plan A)
        , offset := plan.getOffset A
        , point := proveR H plan A
        , value := dot (proveCs H plan A) (proveEvals H plan A)
        , witness := foldVecs (proveCs H plan A)
            ((proveCols H plan A).map (fun col => pad col (mOf plan A))) }
        (foldVecs (proveCs H plan A)
          (vb.anchoredCommitments ++ proveComms H plan A))
        (plan.getOffset A) (proveR H plan A)
        (dot (proveCs H plan A) (proveEvals H plan A)) = true := by
      rw [hanch]
      unfold EvaluationProof.verify
      simp only [Bool.and_eq_true]
      refine ⟨⟨⟨⟨⟨?_, ?_⟩, ?_⟩, ?_⟩, ?_⟩, ?_⟩
      · exact ceq_self _
      · exact beq_self_eq_true _
      · exact beq_self_eq_true _
      · exact beq_self_eq_true _
      · have hmc : (provePb H plan A).anchored.map (commit (plan.getOffset A))
            ++ proveComms H plan A
            = (proveCols H plan A).map (commit (plan.getOffset A)) := by
          unfold proveComms proveCols
          rw [List.map_append]
        rw [hmc]
        exact ceq_commit_foldVecs_pad _ _ _ _
      · rw [beq_iff_eq, mle_foldVecs_pad]
        rfl
    unfold QueryProof.verify
    rw [e1, h1, e2, e3, e4, e5, e6, e7]
    simp only [if_true]
    rw [if_pos h2, h3]
    simp only []
    rw [hvb0, hok]
    simp only []
    rw [if_pos h5, if_pos h6]
    simp [Except.map]

theorem square_mirror_elem (rev a b : F) :
    rev * (a - b * b) = rev * (1 * (a * 1) + ((-1) * (b * (b * 1)) + 0)) := by
  ring

theorem square_honest (H : List F → F) (d : Nat) :
    HonestRun H (SquareTestProofExecutionPlan [9, 25] 1)
      (ownedTableAccessor d [3, 5]) := by
  refine ⟨rfl, rfl, rfl, rfl, rfl, rfl, ?_, ?_, ?_⟩
  · intro sp hsp
    have hl : (provePb H (SquareTestProofExecutionPlan [9, 25] 1)
        (ownedTableAccessor d [3, 5])).subpolys =
        [(SumcheckSubpolynomialType.Identity,
          [((1 : F), [List.map toF [9, 25]]),
           ((-1 : F), [List.map toF [3, 5], List.map toF [3, 5]])])] := rfl
    rw [hl] at hsp
    simp only [List.mem_singleton] at hsp
    subst hsp
    constructor
    · intro _ i hi
      have hb : (2 : Nat) ^ clogTwo ((SquareTestProofExecutionPlan [9, 25] 1).getLength
          (ownedTableAccessor d [3, 5])) = 2 := rfl
      rw [hb] at hi
      interval_cases i
      · decide
      · decide
    · intro h
      exact absurd h (by decide)
  · exact congrArg (fun z => Except.ok [z])
      (square_mirror_elem
        (eqEval (proveRho H (SquareTestProofExecutionPlan [9, 25] 1)
            (ownedTableAccessor d [3, 5]))
          (proveR H (SquareTestProofExecutionPlan [9, 25] 1)
            (ownedTableAccessor d [3, 5])))
        (mle (List.map toF [9, 25])
          (proveR H (SquareTestProofExecutionPlan [9, 25] 1)
            (ownedTableAccessor d [3, 5])))
        (mle (List.map toF [3, 5])
          (proveR H (SquareTestProofExecutionPlan [9, 25] 1)
            (ownedTableAccessor d [3, 5]))))
  · have h : vsmul (toF 1)
        ((ownedTableAccessor d [3, 5]).getCommitment xRef)
        = commit d (List.map toF [3, 5]) := by
      have he : (ownedTableAccessor d [3, 5]).getCommitment xRef
          = commit d (List.map toF [3, 5]) := rfl
      rw [he]
      simp [vsmul, toF]
    exact congrArg (fun z => Except.ok [z]) h

theorem c2_success (d : Nat) (H : List F → F) :
    okTable (QueryProof.verify H
      (QueryProof.new H (SquareTestProofExecutionPlan [9, 25] 1)
        (ownedTableAccessor d [3, 5])).1
      (SquareTestProofExecutionPlan [9, 25] 1) (ownedTableAccessor d [3, 5])
      (QueryProof.new H (SquareTestProofExecutionPlan [9, 25] 1)
        (ownedTableAccessor d [3, 5])).2) [("a1", [9, 25])] = true :=
  okTable_of_map
    (verify_new_complete H (SquareTestProofExecutionPlan [9, 25] 1)
      (ownedTableAccessor d [3, 5]) (square_honest H d))

theorem c2_failure (d : Nat) (H : List F → F) :
    isError (QueryProof.verify H
      (QueryProof.new H (SquareTestProofExecutionPlan [9, 25] 1)
        (ownedTableAccessor d [3, 5])).1
      (SquareTestProofExecutionPlan [9, 25] 1)
      (ownedTableAccessor (d + 1) [3, 5])
      (QueryProof.new H (SquareTestProofExecutionPlan [9, 25] 1)
        (ownedTableAccessor d [3, 5])).2) = true := by
  unfold QueryProof.verify
  rw [if_pos (show countsOk
    (QueryProof.new H (SquareTestProofExecutionPlan [9, 25] 1)
      (ownedTableAccessor d [3, 5])).1
    (QueryProof.new H (SquareTestProofExecutionPlan [9, 25] 1)
      (ownedTableAccessor d [3, 5])).2
    (SquareTestProofExecutionPlan [9, 25] 1).counts = true from rfl)]
  have hev : ∀ (C : Commitment) (r : List F) (v : F),
      EvaluationProof.verify
        (QueryProof.new H (SquareTestProofExecutionPlan [9, 25] 1)
          (ownedTableAccessor d [3, 5])).1.evaluationProof C
        ((SquareTestProofExecutionPlan [9, 25] 1).getOffset
          (ownedTableAccessor (d + 1) [3, 5])) r v = false := by
    intro C r v
    unfold EvaluationProof.verify
    have hoff : ((QueryProof.new H (SquareTestProofExecutionPlan [9, 25] 1)
        (ownedTableAccessor d [3, 5])).1.evaluationProof.offset
        == (SquareTestProofExecutionPlan [9, 25] 1).getOffset
          (ownedTableAccessor (d + 1) [3, 5])) = false := by
      show (d == d + 1) = false
      rw [beq_eq_false_iff_ne]
      omega
    rw [hoff]
    simp
  split
  · split
    · rfl
    · split
      · rfl
      · split
        · rw [hev]
          simp [isError]
        · rfl
  · rfl

/-- C1: as stated — "for every plan P and every valid accessor A,
verify(prove(P, A), P, A) returns Ok" — the claim is false: the trivial test
plan with `column_fill_value = 123` is a plan and the empty accessor is
valid, yet verification of its own honestly-produced proof rejects (the
emitted Identity constraint does not hold).  This is the concrete
counterexample. -/
theorem C1_counterexample :
    isError (QueryProof.verify stdHash
      (QueryProof.new stdHash (TrivialTestProofExecutionPlan 2 0 123 0 0)
        emptyAccessor).1
      (TrivialTestProofExecutionPlan 2 0 123 0 0) emptyAccessor
      (QueryProof.new stdHash (TrivialTestProofExecutionPlan 2 0 123 0 0)
        emptyAccessor).2) = true := by
  decide

/-- C1 (amended): for every plan P, accessor A and transcript hash whose run
is honest — the declared counts match what the passes produce, the result
indexes are valid, every emitted subpolynomial constraint holds on the
hypercube, and the verifier evaluation mirrors the prover — verifying the
proof produced by proving P against A succeeds and the returned table equals
the declared result (the plan's result schema zipped with the selected
result columns). -/
theorem C1_verify_prove_roundtrip (H : List F → F)
    (plan : ProofExecutionPlan) (A : TestAccessor) (hr : HonestRun H plan A) :
    (QueryProof.verify H (QueryProof.new H plan A).1 plan A
        (QueryProof.new H plan A).2).map (fun qd => qd.table)
      = Except.ok (plan.resultFields.zip (resultOf plan A).columns) :=
  verify_new_complete H plan A hr

/-- C1 witness: the default trivial plan against the empty accessor is an
honest run, and the round trip returns the declared table `{ a1: [0] }`. -/
theorem C1_witness :
    (QueryProof.verify stdHash
      (QueryProof.new stdHash (TrivialTestProofExecutionPlan 2 0 0 0 0)
        emptyAccessor).1
      (TrivialTestProofExecutionPlan 2 0 0 0 0) emptyAccessor
      (QueryProof.new stdHash (TrivialTestProofExecutionPlan 2 0 0 0 0)
        emptyAccessor).2).map (fun qd => qd.table)
      = Except.ok [("a1", [0])] :=
  C1_verify_prove_roundtrip stdHash (TrivialTestProofExecutionPlan 2 0 0 0 0)
    emptyAccessor
    ⟨by decide, by decide, by decide, by decide, by decide, by decide,
      by decide, by decide, by decide⟩

/-- C2: for every generator offset `d ≥ 0` (and every transcript hash),
proving the anchored square plan with offset `d` and verifying against the
offset-`d` accessor succeeds with the declared table, and verifying that
same proof and result against the accessor reporting offset `d + 1` returns
an error. -/
theorem C2_offset_roundtrip_and_shift (d : Nat) (H : List F → F) :
    okTable (QueryProof.verify H
        (QueryProof.new H (SquareTestProofExecutionPlan [9, 25] 1)
          (ownedTableAccessor d [3, 5])).1
        (SquareTestProofExecutionPlan [9, 25] 1) (ownedTableAccessor d [3, 5])
        (QueryProof.new H (SquareTestProofExecutionPlan [9, 25] 1)
          (ownedTableAccessor d [3, 5])).2) [("a1", [9, 25])] = true
    ∧ isError (QueryProof.verify H
        (QueryProof.new H (SquareTestProofExecutionPlan [9, 25] 1)
          (ownedTableAccessor d [3, 5])).1
        (SquareTestProofExecutionPlan [9, 25] 1)
        (ownedTableAccessor (d + 1) [3, 5])
        (QueryProof.new H (SquareTestProofExecutionPlan [9, 25] 1)
          (ownedTableAccessor d [3, 5])).2) = true :=
  ⟨c2_success d H, c2_failure d H⟩

/-- C3: whenever the counts the proof and result exhibit deviate from the
plan-declared counts in any component, verification fails. -/
theorem C3_count_deviation_rejects (H : List F → F)
    (plan : ProofExecutionPlan) (A : TestAccessor) (proof : QueryProof)
    (res : ProvableQueryResult)
    (h : observedCounts proof res plan.counts ≠ plan.counts) :
    isError (QueryProof.verify H proof plan A res) = true := by
  have hb : (observedCounts proof res plan.counts == plan.counts) = false :=
    beq_eq_false_iff_ne.mpr h
  unfold QueryProof.verify countsOk
  rw [hb, Bool.false_and]
  simp [isError]

/-- C3 witness: the trivial plan declaring one anchored MLE while the prover
produces none yields a proof whose observed counts deviate, and verification
of it fails. -/
theorem C3_witness :
    observedCounts
        (QueryProof.new stdHash (TrivialTestProofExecutionPlan 2 0 0 0 1)
          emptyAccessor).1
        (QueryProof.new stdHash (TrivialTestProofExecutionPlan 2 0 0 0 1)
          emptyAccessor).2
        (TrivialTestProofExecutionPlan 2 0 0 0 1).counts
      ≠ (TrivialTestProofExecutionPlan 2 0 0 0 1).counts
    ∧ isError (QueryProof.verify stdHash
        (QueryProof.new stdHash (TrivialTestProofExecutionPlan 2 0 0 0 1)
          emptyAccessor).1
        (TrivialTestProofExecutionPlan 2 0 0 0 1) emptyAccessor
        (QueryProof.new stdHash (TrivialTestProofExecutionPlan 2 0 0 0 1)
          emptyAccessor).2) = true :=
  ⟨by decide,
    C3_count_deviation_rejects stdHash (TrivialTestProofExecutionPlan 2 0 0 0 1)
      emptyAccessor _ _ (by decide)⟩

/-- C4: the double-square plan over `sxt.test.x = [3, 5]` proves and
verifies (at offsets 0 and 89) with result `{ a1: [81, 625] }`; multiplying
the wire commitment by 2 makes verification reject; and proving with
`x = [3, 4]` (violating the intermediate equation `z = x·x`) produces a
proof that verification rejects. -/
theorem C4_intermediate_square :
    okTableHash (QueryProof.verify stdHash
        (QueryProof.new stdHash (DoubleSquareTestProofExecutionPlan [81, 625] [9, 25])
          (ownedTableAccessor 0 [3, 5])).1
        (DoubleSquareTestProofExecutionPlan [81, 625] [9, 25])
        (ownedTableAccessor 0 [3, 5])
        (QueryProof.new stdHash (DoubleSquareTestProofExecutionPlan [81, 625] [9, 25])
          (ownedTableAccessor 0 [3, 5])).2) [("a1", [81, 625])] = true
    ∧ okTableHash (QueryProof.verify stdHash
        (QueryProof.new stdHash (DoubleSquareTestProofExecutionPlan [81, 625] [9, 25])
          (ownedTableAccessor 89 [3, 5])).1
        (DoubleSquareTestProofExecutionPlan [81, 625] [9, 25])
        (ownedTableAccessor 89 [3, 5])
        (QueryProof.new stdHash (DoubleSquareTestProofExecutionPlan [81, 625] [9, 25])
          (ownedTableAccessor 89 [3, 5])).2) [("a1", [81, 625])] = true
    ∧ isError (QueryProof.verify stdHash
        { (QueryProof.new stdHash (DoubleSquareTestProofExecutionPlan [81, 625] [9, 25])
            (ownedTableAccessor 0 [3, 5])).1 with
          commitments :=
            ((QueryProof.new stdHash (DoubleSquareTestProofExecutionPlan [81, 625] [9, 25])
              (ownedTableAccessor 0 [3, 5])).1.commitments.map (fun c => vsmul 2 c)) }
        (DoubleSquareTestProofExecutionPlan [81, 625] [9, 25])
        (ownedTableAccessor 0 [3, 5])
        (QueryProof.new stdHash (DoubleSquareTestProofExecutionPlan [81, 625] [9, 25])
          (ownedTableAccessor 0 [3, 5])).2) = true
    ∧ isError (QueryProof.verify stdHash
        (QueryProof.new stdHash (DoubleSquareTestProofExecutionPlan [81, 625] [9, 25])
          (ownedTableAccessor 0 [3, 4])).1
        (DoubleSquareTestProofExecutionPlan [81, 625] [9, 25])
        (ownedTableAccessor 0 [3, 4])
        (QueryProof.new stdHash (DoubleSquareTestProofExecutionPlan [81, 625] [9, 25])
          (ownedTableAccessor 0 [3, 4])).2) = true := by
  refine ⟨by decide, by decide, by decide, by decide⟩

/-- C5: the anchored square plan over `sxt.test.x = [3, 5]` proves and
verifies (at offsets 0 and 123) with result `{ a1: [9, 25] }`; changing the
declared result to `[9, 26]` makes verification reject; and multiplying the
expected x-commitment by 2 makes verification reject. -/
theorem C5_anchored_square :
    okTableHash (QueryProof.verify stdHash
        (QueryProof.new stdHash (SquareTestProofExecutionPlan [9, 25] 1)
          (ownedTableAccessor 0 [3, 5])).1
        (SquareTestProofExecutionPlan [9, 25] 1) (ownedTableAccessor 0 [3, 5])
        (QueryProof.new stdHash (SquareTestProofExecutionPlan [9, 25] 1)
          (ownedTableAccessor 0 [3, 5])).2) [("a1", [9, 25])] = true
    ∧ okTableHash (QueryProof.verify stdHash
        (QueryProof.new stdHash (SquareTestProofExecutionPlan [9, 25] 1)
          (ownedTableAccessor 123 [3, 5])).1
        (SquareTestProofExecutionPlan [9, 25] 1) (ownedTableAccessor 123 [3, 5])
        (QueryProof.new stdHash (SquareTestProofExecutionPlan [9, 25] 1)
          (ownedTableAccessor 123 [3, 5])).2) [("a1", [9, 25])] = true
    ∧ isError (QueryProof.verify stdHash
        (QueryProof.new stdHash (SquareTestProofExecutionPlan [9, 26] 1)
          (ownedTableAccessor 0 [3, 5])).1
        (SquareTestProofExecutionPlan [9, 26] 1) (ownedTableAccessor 0 [3, 5])
        (QueryProof.new stdHash (SquareTestProofExecutionPlan [9, 26] 1)
          (ownedTableAccessor 0 [3, 5])).2) = true
    ∧ isError (QueryProof.verify stdHash
        (QueryProof.new stdHash (SquareTestProofExecutionPlan [9, 25] 2)
          (ownedTableAccessor 0 [3, 5])).1
        (SquareTestProofExecutionPlan [9, 25] 2) (ownedTableAccessor 0 [3, 5])
        (QueryProof.new stdHash (SquareTestProofExecutionPlan [9, 25] 2)
          (ownedTableAccessor 0 [3, 5])).2) = true := by
  refine ⟨by decide, by decide, by decide, by decide⟩

/-- C6: the trivial plan with column `[123, 123]` (every entry 123 instead
of 0) yields an Identity subpolynomial that is not identically zero, so the
composite polynomial's hypercube sum is nonzero and verification rejects
with `SumcheckFailure`. -/
theorem C6_nonzero_column_sumcheck_failure :
    QueryProof.verify stdHash
        (QueryProof.new stdHash (TrivialTestProofExecutionPlan 2 0 123 0 0)
          emptyAccessor).1
        (TrivialTestProofExecutionPlan 2 0 123 0 0) emptyAccessor
        (QueryProof.new stdHash (TrivialTestProofExecutionPlan 2 0 123 0 0)
          emptyAccessor).2
      = Except.error ProofError.SumcheckFailure := by
  decide

/-- C7: whenever the composite evaluation the verifier recombines from the
plan's produced subpolynomial evaluations and the Fiat–Shamir multipliers
differs from the sumcheck engine's claimed composite evaluation,
verification rejects; in particular, the trivial plan producing the constant
123 as its subpolynomial evaluation makes verification return
`EvaluationMismatch`. -/
theorem C7_evaluation_mismatch_rejects :
    (∀ (H : List F → F) (plan : ProofExecutionPlan) (A : TestAccessor)
        (proof : QueryProof) (res : ProvableQueryResult)
        (resultEvals : List F) (vb : VerificationBuilder),
      res.evaluate (plan.getLength A) (mOf plan A) (verifyR H plan A proof res)
          = Except.ok resultEvals →
      plan.verifierEvaluate (verifyVb0 H plan A proof res resultEvals) A
          = Except.ok vb →
      dot (gammaOf H plan A res proof.commitments) vb.produced
          ≠ compositeEval (mOf plan A) (rhoOf H plan A res proof.commitments)
              (gammaOf H plan A res proof.commitments)
              (verifyR H plan A proof res) proof.subpolys →
      isError (QueryProof.verify H proof plan A res) = true)
    ∧ QueryProof.verify stdHash
        (QueryProof.new stdHash (TrivialTestProofExecutionPlan 2 0 0 123 0)
          emptyAccessor).1
        (TrivialTestProofExecutionPlan 2 0 0 123 0) emptyAccessor
        (QueryProof.new stdHash (TrivialTestProofExecutionPlan 2 0 0 123 0)
          emptyAccessor).2
      = Except.error ProofError.EvaluationMismatch := by
  constructor
  · intro H plan A proof res resultEvals vb h1 h2 h3
    unfold QueryProof.verify
    split
    · split
      · rw [h1]
        dsimp only
        rw [h2]
        dsimp only
        rw [if_neg h3]
        rfl
      · rfl
    · rfl
  · decide

/-- C7 witness: the mismatch hypothesis holds at the eval-123 trivial plan
run and verification errors there. -/
theorem C7_witness :
    isError (QueryProof.verify stdHash
      (QueryProof.new stdHash (TrivialTestProofExecutionPlan 2 0 0 123 0)
        emptyAccessor).1
      (TrivialTestProofExecutionPlan 2 0 0 123 0) emptyAccessor
      (QueryProof.new stdHash (TrivialTestProofExecutionPlan 2 0 0 123 0)
        emptyAccessor).2) = true :=
  C7_evaluation_mismatch_rejects.1 stdHash
    (TrivialTestProofExecutionPlan 2 0 0 123 0) emptyAccessor _ _ [0]
    { mleEvaluations := { randomEvaluation := 850611 }
    , resultEvals := []
    , anchoredEvals := []
    , intermediateEvals := []
    , challenges := []
    , produced := [123]
    , anchoredCommitments := [] }
    (by decide) (by decide) (by decide)

/-- C8: after proving the trivial plan, removing the last index of the
result's Sparse index list (so the produced result column no longer has
`indexes.len()` entries) makes verification of the original proof against
the modified result return an error. -/
theorem C8_tampered_indexes_rejects :
    isError (QueryProof.verify stdHash
      (QueryProof.new stdHash (TrivialTestProofExecutionPlan 2 0 0 0 0)
        emptyAccessor).1
      (TrivialTestProofExecutionPlan 2 0 0 0 0) emptyAccessor
      { (QueryProof.new stdHash (TrivialTestProofExecutionPlan 2 0 0 0 0)
          emptyAccessor).2 with
        indexes := ((QueryProof.new stdHash
          (TrivialTestProofExecutionPlan 2 0 0 0 0)
          emptyAccessor).2.indexes.popLast) }) = true := by
  decide

/-- C9: the challenge plan (two post-result challenges, only `α` used as the
Identity coefficient) proves and verifies with result `{ a1: [9, 25] }` at
both a zero and a non-zero generator offset, and both the prover-side and the
verifier-side passes consume exactly the two sampled challenges (the unused
`β` included). -/
theorem C9_post_result_challenges :
    okTableHash (QueryProof.verify stdHash
        (QueryProof.new stdHash ChallengeTestProofExecutionPlan
          (ownedTableAccessor 0 [3, 5])).1
        ChallengeTestProofExecutionPlan (ownedTableAccessor 0 [3, 5])
        (QueryProof.new stdHash ChallengeTestProofExecutionPlan
          (ownedTableAccessor 0 [3, 5])).2) [("a1", [9, 25])] = true
    ∧ okTableHash (QueryProof.verify stdHash
        (QueryProof.new stdHash ChallengeTestProofExecutionPlan
          (ownedTableAccessor 123 [3, 5])).1
        ChallengeTestProofExecutionPlan (ownedTableAccessor 123 [3, 5])
        (QueryProof.new stdHash ChallengeTestProofExecutionPlan
          (ownedTableAccessor 123 [3, 5])).2) [("a1", [9, 25])] = true
    ∧ (∀ pb : ProofBuilder,
        (ChallengeTestProofExecutionPlan.proverEvaluate pb
          (ownedTableAccessor 0 [3, 5])).challenges = pb.challenges.tail.tail)
    ∧ (∀ vb : VerificationBuilder,
        (ChallengeTestProofExecutionPlan.verifierEvaluate vb
            (ownedTableAccessor 0 [3, 5])).map (fun b => b.challenges)
          = Except.ok vb.challenges.tail.tail) := by
  refine ⟨by decide, by decide, fun pb => rfl, fun vb => rfl⟩

/-- C10: for every table length `1 ≤ n ≤ 4` and each generator offset in
`{0, 123}`, proving the trivial zero-column plan against the empty catalog
and verifying succeeds, returns `{ a1: [0] }`, and yields a nonzero
verification hash. -/
theorem C10_trivial_all_lengths (n k : Nat) (h1 : 1 ≤ n) (h2 : n ≤ 4)
    (hk : k = 0 ∨ k = 123) :
    okTableHash (QueryProof.verify stdHash
      (QueryProof.new stdHash (TrivialTestProofExecutionPlan n k 0 0 0)
        emptyAccessor).1
      (TrivialTestProofExecutionPlan n k 0 0 0) emptyAccessor
      (QueryProof.new stdHash (TrivialTestProofExecutionPlan n k 0 0 0)
        emptyAccessor).2) [("a1", [0])] = true := by
  rcases hk with rfl | rfl <;> interval_cases n <;> decide

/-- C10 witness: the bounds hold at `n = 1`, `k = 0`, and the round trip
succeeds there. -/
theorem C10_witness :
    1 ≤ 1 ∧ 1 ≤ 4
    ∧ okTableHash (QueryProof.verify stdHash
        (QueryProof.new stdHash (TrivialTestProofExecutionPlan 1 0 0 0 0)
          emptyAccessor).1
        (TrivialTestProofExecutionPlan 1 0 0 0 0) emptyAccessor
        (QueryProof.new stdHash (TrivialTestProofExecutionPlan 1 0 0 0 0)
          emptyAccessor).2) [("a1", [0])] = true :=
  ⟨by decide, by decide,
    C10_trivial_all_lengths 1 0 (by decide) (by decide) (Or.inl rfl)⟩

end SxtProof
